import Mathlib

/-!
# Verification of the proxyflare request-routing / rewriting core

Shallow embedding of the proxyflare relay protocol:

* `src/proxyflare/workers/python/worker.py` — the relay handler
  (`on_fetch`, `generate_random_ip`, `create_error_response`);
* `src/proxyflare/client/transport.py` — the client-side outbound
  rewriter (`ProxyflareTransport.handle_request` and its async twin,
  which share the identical rewriting logic).

Strings are modelled as `List Char` (the worker operates on ASCII URL
and header data; Python `str.lower` / `urllib` percent-decoding are
modelled at ASCII granularity, which is exact for the byte range the
protocol traffics in).  Python dicts keyed by strings are modelled as
association lists with Python's insert-or-overwrite-in-place update
semantics (`dictInsert`).  The standard-library pieces the worker calls
(`urllib.parse.parse_qs`, `urlencode(..., doseq=True)`, `urlparse` /
`urlunparse` restricted to the query/fragment components the worker
touches, and `quote_plus` / `unquote_plus`) are embedded faithfully.
-/

/-- Character strings, modelled as lists of (ASCII) characters. -/
abbrev Str := List Char

namespace Proxyflare

/-! ## Python dict primitives (association lists, insertion ordered) -/

/-- Python `d[k] = v`: overwrite in place if the exact key is present,
else append at the end (insertion order preserved). -/
def dictInsert (d : List (Str × α)) (k : Str) (v : α) : List (Str × α) :=
  if d.any (fun p => p.1 = k) then
    d.map (fun p => if p.1 = k then (k, v) else p)
  else d ++ [(k, v)]

/-- Python `d.get(k)` / `k in d` style lookup. -/
def dictGet (d : List (Str × α)) (k : Str) : Option α :=
  (d.find? (fun p => p.1 = k)).map (fun p => p.2)

/-- Python `d.update(e)`: insert every pair of `e` into `d` in order. -/
def dictUpdate (d e : List (Str × α)) : List (Str × α) :=
  e.foldl (fun acc p => dictInsert acc p.1 p.2) d

/-! ## urllib.parse primitives -/

/-- The `ALWAYS_SAFE` set of `urllib.parse`: ASCII alphanumerics and `_.-~`
are never percent-encoded by `quote_plus(..., safe='')`. -/
def alwaysSafe (c : Char) : Bool :=
  c.isAlphanum || c = '_' || c = '.' || c = '-' || c = '~'

/-- Uppercase hex digit for a nibble, as `urllib.parse.quote` emits. -/
def hexDigit (n : Nat) : Char :=
  if n < 10 then Char.ofNat (48 + n) else Char.ofNat (55 + n)

/-- Python `urllib.parse.quote_plus(s, safe='')` on one ASCII character:
space becomes `+`, safe characters pass, the rest becomes `%XX`. -/
def quotePlusChar (c : Char) : Str :=
  if c = ' ' then ['+']
  else if alwaysSafe c then [c]
  else ['%', hexDigit (c.toNat / 16), hexDigit (c.toNat % 16)]

/-- Python `urllib.parse.quote_plus(s, safe='')` (the `quote_via` used by
`urlencode`, hence by httpx's `QueryParams.__str__`). -/
def quotePlus (s : Str) : Str := s.flatMap quotePlusChar

/-- Hex-digit value accepted by `urllib.parse.unquote` (either case). -/
def unhex (c : Char) : Option Nat :=
  if '0' ≤ c ∧ c ≤ '9' then some (c.toNat - 48)
  else if 'A' ≤ c ∧ c ≤ 'F' then some (c.toNat - 55)
  else if 'a' ≤ c ∧ c ≤ 'f' then some (c.toNat - 87)
  else none

/-- Python `urllib.parse.unquote_plus`: `+` decodes to space, a valid `%XX`
decodes to the byte `XX`, an invalid `%` sequence is kept verbatim
(Python keeps the `%` and resumes right after it). -/
def unquotePlus : Str → Str
  | [] => []
  | '+' :: rest => ' ' :: unquotePlus rest
  | '%' :: a :: b :: rest =>
    match unhex a, unhex b with
    | some x, some y => Char.ofNat (16 * x + y) :: unquotePlus rest
    | _, _ => '%' :: unquotePlus (a :: b :: rest)
  | '%' :: rest => '%' :: unquotePlus rest
  | c :: rest => c :: unquotePlus rest

/-- Split a string at every occurrence of `sep` (Python `s.split(sep)`;
`parse_qsl` splits the query string on `'&'`). -/
def splitOnChar (sep : Char) : Str → List Str
  | [] => [[]]
  | c :: rest =>
    if c = sep then [] :: splitOnChar sep rest
    else
      match splitOnChar sep rest with
      | [] => [[c]]
      | h :: t => (c :: h) :: t

/-- Python `s.partition(sep)` reduced to what `parse_qsl` and
`urlsplit` use: the part before the first `sep`, and — when `sep`
occurs — the part after it. -/
def partitionChar (sep : Char) : Str → Str × Option Str
  | [] => ([], none)
  | c :: rest =>
    if c = sep then ([], some rest)
    else
      match partitionChar sep rest with
      | (b, a) => (c :: b, a)

/-- One `name=value` piece of `urllib.parse.parse_qsl(qs)` with the
default `keep_blank_values=False`: pieces with an empty value (also
pieces with no `=` at all, and empty pieces) are dropped; name and
value are `unquote_plus`-decoded. -/
def parseQsPiece (nv : Str) : Option (Str × Str) :=
  let p := partitionChar '=' nv
  match p.2 with
  | some v => if v = [] then none else some (unquotePlus p.1, unquotePlus v)
  | none => none

/-- Python `urllib.parse.parse_qsl(qs)` (default separator `'&'`). -/
def parse_qsl (qs : Str) : List (Str × Str) :=
  (splitOnChar '&' qs).filterMap parseQsPiece

/-- Fold one decoded pair into the `parse_qs` result dict: append to
the value list of an existing key, else add a new singleton entry. -/
def addToAssoc (acc : List (Str × List Str)) (k v : Str) :
    List (Str × List Str) :=
  if acc.any (fun p => p.1 = k) then
    acc.map (fun p => if p.1 = k then (p.1, p.2 ++ [v]) else p)
  else acc ++ [(k, [v])]

/-- Python `urllib.parse.parse_qs(qs)`: dict from name to list of values. -/
def parse_qs (qs : Str) : List (Str × List Str) :=
  (parse_qsl qs).foldl (fun acc p => addToAssoc acc p.1 p.2) []

/-- Python `urllib.parse.urlencode(d, doseq=True)`: each key/value pair is
`quote_plus`-encoded and the pairs are joined with `'&'`, expanding
list values into repeated keys. -/
def urlencodeDoseq (d : List (Str × List Str)) : Str :=
  List.intercalate ['&']
    (d.flatMap (fun p => p.2.map (fun v => quotePlus p.1 ++ '=' :: quotePlus v)))

/-- The result of `urllib.parse.urlparse` restricted to the components
the worker reads or replaces: everything before the query (scheme,
netloc, path — kept unsplit since the worker passes them through
verbatim), the query, and the fragment. -/
structure PyParsedUrl where
  base : Str
  query : Str
  fragment : Str
  deriving Repr, DecidableEq

/-- Python `urllib.parse.urlparse(u)` at the granularity of `PyParsedUrl`:
`urlsplit` severs the fragment at the first `'#'`, then the query at
the first `'?'` of what precedes it. -/
def pyUrlparse (u : Str) : PyParsedUrl :=
  let f := partitionChar '#' u
  let q := partitionChar '?' f.1
  ⟨q.1, (q.2).getD [], (f.2).getD []⟩

/-- Python `urllib.parse.urlunparse` of a parsed URL whose query was replaced
(`parsed._replace(query=...)`): `'?'` and `'#'` reappear only in front
of non-empty components. -/
def pyUrlunparse (p : PyParsedUrl) : Str :=
  p.base ++ (if p.query = [] then [] else '?' :: p.query)
    ++ (if p.fragment = [] then [] else '#' :: p.fragment)

/-! ## JSON values (the error bodies built by `create_error_response`) -/

/-- The JSON fragment the worker's error bodies use: strings and
string-keyed objects. -/
inductive JVal where
  | s (v : Str)
  | obj (fields : List (Str × JVal))
  deriving Repr

/-! ## worker.py: the relay handler -/

/-- Python `str.lower()` on the ASCII header names the worker
compares (`Char.toLower` lowercases exactly `A`–`Z`). -/
def lowerStr (s : Str) : Str := s.map Char.toLower

/-- The constant `FILTERED_PARAMS = frozenset({"url", "_cb", "_t"})` — the control
query parameters reserved for the relay protocol. -/
def FILTERED_PARAMS : List Str := ["url".data, "_cb".data, "_t".data]

/-- Embeds `generate_random_ip()`: four dot-separated decimal integers, each
drawn by `random.randint(1, 255)`.  The random source is passed in as
`r`; `randint(1, 255)` guarantees `1 ≤ r i ≤ 255`. -/
def generate_random_ip (r : Fin 4 → Nat) : Str :=
  List.intercalate ['.']
    [(Nat.repr (r 0)).data, (Nat.repr (r 1)).data,
     (Nat.repr (r 2)).data, (Nat.repr (r 3)).data]

/-- The request-header names dropped case-insensitively before the
downstream fetch (worker.py line 117). -/
def DROPPED_REQUEST_HEADERS : List Str :=
  ["host".data, "cf-connecting-ip".data, "cf-ipcountry".data,
   "cf-ray".data, "cf-visitor".data]

/-- One iteration of the worker's header-preparation loop
(worker.py lines 115–126): drop the platform headers, rename
`X-My-X-Forwarded-For` to `X-Forwarded-For`, pass everything else
through into the `headers` dict under its original casing. -/
def sanitizeStep (acc : List (Str × Str)) (kv : Str × Str) :
    List (Str × Str) :=
  let kl := lowerStr kv.1
  if kl ∈ DROPPED_REQUEST_HEADERS then acc
  else if kl = "x-my-x-forwarded-for".data then
    dictInsert acc "X-Forwarded-For".data kv.2
  else dictInsert acc kv.1 kv.2

/-- The worker's header-preparation loop over
`request.headers.entries()`. -/
def sanitizeHeaders (entries : List (Str × Str)) : List (Str × Str) :=
  entries.foldl sanitizeStep []

/-- worker.py lines 128–133: synthesize `X-Forwarded-For` only when no
key of the prepared dict equals it case-insensitively. -/
def addForwardedFor (h : List (Str × Str)) (r : Fin 4 → Nat) :
    List (Str × Str) :=
  if h.any (fun p => lowerStr p.1 = "x-forwarded-for".data) then h
  else dictInsert h "X-Forwarded-For".data (generate_random_ip r)

/-- The full downstream header pipeline: sanitize, then anonymize. -/
def prepareDownstreamHeaders (entries : List (Str × Str)) (r : Fin 4 → Nat) :
    List (Str × Str) :=
  addForwardedFor (sanitizeHeaders entries) r

/-- worker.py lines 80–88: merge of the target URL's own (decoded)
query dict with the relay request's query dict, both with the control
parameters removed; `dict.update` lets the relay request's extra
parameters overwrite same-named target parameters. -/
def mergedTargetQuery (targetQS : Str) (relayParams : List (Str × List Str)) :
    List (Str × List Str) :=
  let filtered_qs :=
    (parse_qs targetQS).filter (fun p => ¬ p.1 ∈ FILTERED_PARAMS)
  let extra_qs := relayParams.filter (fun p => ¬ p.1 ∈ FILTERED_PARAMS)
  dictUpdate filtered_qs extra_qs

/-- worker.py lines 79–88: rebuild the target given via the `url`
query parameter, replacing its query string with the filtered merge
(empty merge ⇒ empty query string). -/
def rebuildTarget (v : Str) (relayParams : List (Str × List Str)) : Str :=
  let target_parsed := pyUrlparse v
  let merged := mergedTargetQuery target_parsed.query relayParams
  let new_query := if merged = [] then [] else urlencodeDoseq merged
  pyUrlunparse { target_parsed with query := new_query }

/-- worker.py lines 76–78: the `url` query parameter is used only when
present with a non-empty first value (`if url_param and url_param[0]`),
in which case the rebuilt target is produced. -/
def fromUrlParam (qp : List (Str × List Str)) : Option Str :=
  match dictGet qp "url".data with
  | some (v :: _) => if v = [] then none else some (rebuildTarget v qp)
  | _ => none

/-- JS `Headers.get(name)`: case-insensitive lookup, `null` when
absent. -/
def headerGet (h : List (Str × Str)) (name : Str) : Option Str :=
  (h.find? (fun p => lowerStr p.1 = lowerStr name)).map (fun p => p.2)

/-- worker.py lines 69–98: target URL resolution.  Python's `if not
target_url` treats both `None` and the empty string as "no target", so
each stage carries `[]` for "nothing yet". -/
def resolveTarget (qp : List (Str × List Str)) (hdr : Option Str)
    (path : Str) : Option Str :=
  let t1 : Str :=
    match fromUrlParam qp with
    | some t => t
    | none => []
  let t2 : Str := if t1 = [] then hdr.getD [] else t1
  let t3 : Str :=
    if t2 = [] ∧ path ≠ "/".data then
      let p := path.dropWhile (fun c => c = '/')
      if "http".data.isPrefixOf p then p else []
    else t2
  if t3 = [] then none else some t3

/-! ## worker.py: responses and the handler itself -/

/-- The three Worker environment bindings read with `getattr(env, ..)`
(absent binding ⇒ the in-code default literal is used). -/
structure Env where
  CORS_ORIGIN : Option Str
  CORS_METHODS : Option Str
  CORS_ALLOWED_HEADERS : Option Str

/-- A downstream (`fetch`) response as the worker reads it: status,
status text and header entries; the body is an opaque stream the
worker forwards without inspection. -/
structure DownResp where
  status : Nat
  statusText : Str
  headers : List (Str × Str)

/-- Body of a worker `Response`: empty (`Response.new(None, ..)`), the
forwarded downstream stream, or a JSON object (`Response.json`). -/
inductive RBody where
  | empty
  | stream (source : DownResp)
  | json (fields : List (Str × JVal))

/-- A `Response` the worker returns to its caller. -/
structure RelayResp where
  status : Nat
  statusText : Option Str
  headers : List (Str × Str)
  body : RBody

/-- The hardcoded CORS header triple (used verbatim by the `OPTIONS`
preflight branch and by `create_error_response`'s default branch). -/
def defaultCorsHeaders : List (Str × Str) :=
  [("Access-Control-Allow-Origin".data, "*".data),
   ("Access-Control-Allow-Methods".data,
    "GET, POST, PUT, DELETE, OPTIONS, PATCH, HEAD".data),
   ("Access-Control-Allow-Headers".data, "*".data)]

/-- Embeds `create_error_response(message, details, status, cors_headers)`:
JSON body `{"error": message, **details}`, headers `Content-Type` plus
the provided CORS headers or the hardcoded defaults. -/
def create_error_response (message : Str) (details : List (Str × JVal))
    (status : Nat) (cors_headers : Option (List (Str × Str))) : RelayResp :=
  let body := dictUpdate [("error".data, JVal.s message)] details
  let headers :=
    dictUpdate [("Content-Type".data, "application/json".data)]
      (cors_headers.getD defaultCorsHeaders)
  ⟨status, none, headers, RBody.json body⟩

/-- The `usage` object of the 400 "Missing target URL" body,
documenting the three target-input mechanisms. -/
def usageDetails : List (Str × JVal) :=
  [("usage".data, JVal.obj
    [("query_param".data, JVal.s "?url=https://example.com".data),
     ("header".data, JVal.s "X-Target-URL: https://example.com".data),
     ("path".data, JVal.s "/https://example.com".data)])]

/-- Response-header names dropped from the downstream response
(worker.py line 151). -/
def DROPPED_RESPONSE_HEADERS : List Str :=
  ["content-encoding".data, "content-length".data, "transfer-encoding".data]

/-- worker.py lines 148–152: rebuild the response header dict from the
downstream entries, skipping the encoding/framing headers. -/
def filterResponseHeaders (entries : List (Str × Str)) : List (Str × Str) :=
  entries.foldl
    (fun acc p =>
      if lowerStr p.1 ∈ DROPPED_RESPONSE_HEADERS then acc
      else dictInsert acc p.1 p.2)
    []

/-- worker.py lines 155–159: the CORS triple added to proxied
responses, read from the environment with in-code defaults. -/
def corsFromEnv (env : Env) : List (Str × Str) :=
  [("Access-Control-Allow-Origin".data, env.CORS_ORIGIN.getD "*".data),
   ("Access-Control-Allow-Methods".data,
    env.CORS_METHODS.getD "GET, POST, OPTIONS".data),
   ("Access-Control-Allow-Headers".data,
    env.CORS_ALLOWED_HEADERS.getD "*".data)]

/-- An inbound relay request as the worker observes it:
`request.method`, the path and query of `urlparse(request.url)`, and
`request.headers.entries()` (JS `Headers` yields each name once). -/
structure RelayRequest where
  method : Str
  path : Str
  queryString : Str
  headers : List (Str × Str)

/-- The observable result of one `on_fetch` invocation.  The
constructor records whether (and with which target, headers and body
flag) the single downstream `fetch` was issued — `on_fetch` never
fetches twice, and the 400/502 paths are terminal. -/
inductive Outcome where
  | preflight (resp : RelayResp)
  | missingTarget (resp : RelayResp)
  | proxied (target : Str) (outHeaders : List (Str × Str))
      (hasBody : Bool) (resp : RelayResp)
  | proxyError (target : Str) (outHeaders : List (Str × Str))
      (hasBody : Bool) (resp : RelayResp)

/-- The response a given outcome hands back to the caller. -/
def Outcome.resp : Outcome → RelayResp
  | .preflight r => r
  | .missingTarget r => r
  | .proxied _ _ _ r => r
  | .proxyError _ _ _ r => r

/-- Embeds `on_fetch(request, env)` — the whole relay handler.  The ambient
randomness is `rng` (the four `randint(1, 255)` draws), and the
downstream `fetch` is the oracle `fetchResult` (`Except.error cause`
models the raised network exception caught at worker.py line 173). -/
def on_fetch (req : RelayRequest) (env : Env) (rng : Fin 4 → Nat)
    (fetchResult : Except Str DownResp) : Outcome :=
  if req.method = "OPTIONS".data then
    Outcome.preflight ⟨204, none, defaultCorsHeaders, RBody.empty⟩
  else
    let query_params := parse_qs req.queryString
    match resolveTarget query_params
        (headerGet req.headers "X-Target-URL".data) req.path with
    | none =>
      Outcome.missingTarget
        (create_error_response "Missing target URL".data usageDetails 400 none)
    | some target_url =>
      let headers := prepareDownstreamHeaders req.headers rng
      let hasBody := ¬ (req.method = "GET".data ∨ req.method = "HEAD".data)
      match fetchResult with
      | Except.error e =>
        Outcome.proxyError target_url headers hasBody
          (create_error_response ("Proxy Error: ".data ++ e) [] 502 none)
      | Except.ok response =>
        let new_headers :=
          dictUpdate (filterResponseHeaders response.headers) (corsFromEnv env)
        Outcome.proxied target_url headers hasBody
          ⟨response.status, some response.statusText, new_headers,
           RBody.stream response⟩

/-! ## transport.py: the client-side outbound rewriter -/

/-- An `httpx.URL` at the granularity the transport manipulates:
everything up to the query (scheme, host, path — `copy_with` keeps it
unchanged) and the raw query string. -/
structure HttpxURL where
  base : Str
  query : Str
  deriving Repr, DecidableEq

/-- Embeds `str(httpx.QueryParams(params))`: `urlencode` over the items, i.e.
`quote_plus`-encoded keys and values joined with `=` and `&`. -/
def queryParamsStr (params : List (Str × Str)) : Str :=
  List.intercalate ['&']
    (params.map (fun p => quotePlus p.1 ++ '=' :: quotePlus p.2))

/-- httpx `URL.copy_with(params=...)`: the `params` keyword is
translated to the raw `query` component, replacing whatever query the
URL carried before; all other components are kept. -/
def copyWithParams (u : HttpxURL) (params : List (Str × Str)) : HttpxURL :=
  { u with query := queryParamsStr params }

/-- Embeds `ProxyflareTransport.handle_request` lines 50–56 (and the
identical `AsyncProxyflareTransport.handle_async_request` lines
112–115): the chosen worker URL is rewritten to carry the original
request's full URL string as the `url` query parameter. -/
def rewriteOutbound (workerUrl : HttpxURL) (targetUrl : Str) : HttpxURL :=
  copyWithParams workerUrl [("url".data, targetUrl)]

/-- The string `str(request.url)` of the rewritten request: base, then `?query`
when the query is non-empty. -/
def httpxUrlStr (u : HttpxURL) : Str :=
  u.base ++ (if u.query = [] then [] else '?' :: u.query)

/-! ## Spec-side description of the header sanitization (for C6) -/

/-- Modelled from the spec's words (§4.3 request header sanitization),
for comparison with `sanitizeHeaders`: each incoming header is either
dropped (platform headers), renamed (`X-My-X-Forwarded-For` re-emitted
as `X-Forwarded-For`), or passed through unchanged. -/
def renameSpec (kv : Str × Str) : Option (Str × Str) :=
  if lowerStr kv.1 ∈ DROPPED_REQUEST_HEADERS then none
  else if lowerStr kv.1 = "x-my-x-forwarded-for".data then
    some ("X-Forwarded-For".data, kv.2)
  else some kv

/-- The spec's request-header map: the per-header rule applied entrywise. -/
def sanitizeSpec (entries : List (Str × Str)) : List (Str × Str) :=
  entries.filterMap renameSpec

/-- The key a header entry contributes to the worker's `headers` dict
(`none` when the entry is dropped). -/
def producedKey (kv : Str × Str) : Option Str :=
  (renameSpec kv).map (fun p => p.1)

/-- The `error` field of a JSON response body (error responses only). -/
def RelayResp.errorField (r : RelayResp) : Option JVal :=
  match r.body with
  | RBody.json f => dictGet f "error".data
  | _ => none

/-- The `usage` field of a JSON response body. -/
def RelayResp.usageField (r : RelayResp) : Option JVal :=
  match r.body with
  | RBody.json f => dictGet f "usage".data
  | _ => none

/-! ## Dictionary lemmas -/

theorem find?_map_replace_ne (d : List (Str × α)) (k k' : Str) (v : α)
    (hne : k' ≠ k) :
    (d.map (fun p => if p.1 = k then (k, v) else p)).find? (fun p => p.1 = k')
      = d.find? (fun p => p.1 = k') := by
  induction d with
  | nil => rfl
  | cons q d ih =>
    by_cases hq : q.1 = k
    · simp only [List.map_cons, if_pos hq]
      rw [List.find?_cons_of_neg _ (by simp [Ne.symm hne]),
        List.find?_cons_of_neg _ (by simp [hq, Ne.symm hne]), ih]
    · simp only [List.map_cons, if_neg hq]
      by_cases hq' : q.1 = k'
      · rw [List.find?_cons_of_pos _ (by simp [hq']),
          List.find?_cons_of_pos _ (by simp [hq'])]
      · rw [List.find?_cons_of_neg _ (by simp [hq']),
          List.find?_cons_of_neg _ (by simp [hq']), ih]

theorem find?_map_replace_self (d : List (Str × α)) (k : Str) (v : α) :
    (d.map (fun p => if p.1 = k then (k, v) else p)).find? (fun p => p.1 = k)
      = if d.any (fun p => p.1 = k) then some (k, v) else none := by
  induction d with
  | nil => rfl
  | cons q d ih =>
    by_cases hq : q.1 = k
    · simp only [List.map_cons, if_pos hq]
      rw [List.find?_cons_of_pos _ (by simp)]
      have hc : ((q :: d).any (fun p => p.1 = k)) = true := by
        rw [List.any_cons, decide_eq_true hq, Bool.true_or]
      rw [if_pos hc]
    · simp only [List.map_cons, if_neg hq, List.any_cons]
      rw [List.find?_cons_of_neg _ (by simp [hq]), ih]
      simp only [decide_eq_false hq, Bool.false_or]

/-- The characteristic equation of Python dict assignment. -/
theorem dictGet_dictInsert (d : List (Str × α)) (k k' : Str) (v : α) :
    dictGet (dictInsert d k v) k'
      = if k' = k then some v else dictGet d k' := by
  unfold dictInsert dictGet
  by_cases hany : d.any (fun p => p.1 = k)
  · rw [if_pos hany]
    by_cases hk : k' = k
    · subst hk
      rw [find?_map_replace_self, if_pos hany, if_pos rfl]
      rfl
    · rw [find?_map_replace_ne d k k' v hk, if_neg hk]
  · rw [if_neg hany, List.find?_append]
    by_cases hk : k' = k
    · subst hk
      have hnone : d.find? (fun p => p.1 = k') = none := by
        rw [List.find?_eq_none]
        intro p hp
        simp only [List.any_eq_true] at hany
        simpa using fun h => hany ⟨p, hp, by simp [h]⟩
      rw [hnone, if_pos rfl]
      rw [List.find?_cons_of_pos _ (by simp)]
      rfl
    · have hsing : ([(k, v)].find? (fun p => p.1 = k')) = none := by
        rw [List.find?_eq_none]
        intro x hx
        rw [List.mem_singleton] at hx
        subst hx
        simp only [decide_eq_true_eq]
        exact fun h => hk h.symm
      rw [hsing, if_neg hk, Option.or_none]

theorem dictGet_dictInsert_self (d : List (Str × α)) (k : Str) (v : α) :
    dictGet (dictInsert d k v) k = some v := by
  rw [dictGet_dictInsert, if_pos rfl]

theorem dictGet_dictInsert_ne (d : List (Str × α)) (k k' : Str) (v : α)
    (h : k' ≠ k) : dictGet (dictInsert d k v) k' = dictGet d k' := by
  rw [dictGet_dictInsert, if_neg h]

theorem dictInsert_eq_append (d : List (Str × α)) (k : Str) (v : α)
    (h : ∀ p ∈ d, p.1 ≠ k) : dictInsert d k v = d ++ [(k, v)] := by
  unfold dictInsert
  rw [if_neg]
  intro hany
  rw [List.any_eq_true] at hany
  obtain ⟨p, hp, hk⟩ := hany
  exact h p hp (by simpa using hk)

theorem mem_dictInsert (d : List (Str × α)) (k : Str) (v : α) (p : Str × α)
    (h : p ∈ dictInsert d k v) : p ∈ d ∨ p = (k, v) := by
  unfold dictInsert at h
  by_cases hany : d.any (fun p => p.1 = k)
  · rw [if_pos hany] at h
    obtain ⟨q, hq, hfq⟩ := List.mem_map.mp h
    by_cases hk : q.1 = k
    · right; rw [if_pos hk] at hfq; exact hfq.symm
    · left; rw [if_neg hk] at hfq; exact hfq ▸ hq
  · rw [if_neg hany] at h
    rcases List.mem_append.mp h with h' | h'
    · exact Or.inl h'
    · right
      simpa using h'

theorem dictGet_eq_none_iff (d : List (Str × α)) (k : Str) :
    dictGet d k = none ↔ ∀ p ∈ d, p.1 ≠ k := by
  unfold dictGet
  rw [Option.map_eq_none', List.find?_eq_none]
  constructor
  · intro h p hp; simpa using h p hp
  · intro h p hp; simpa using h p hp

theorem dictGet_dictUpdate_of_none (d e : List (Str × α)) (k : Str)
    (h : dictGet e k = none) :
    dictGet (dictUpdate d e) k = dictGet d k := by
  induction e generalizing d with
  | nil => rfl
  | cons q e ih =>
    have hq : q.1 ≠ k := (dictGet_eq_none_iff _ _).mp h q (by simp)
    have he : dictGet e k = none := by
      rw [dictGet_eq_none_iff]
      exact fun p hp => (dictGet_eq_none_iff _ _).mp h p (by simp [hp])
    show dictGet (dictUpdate (dictInsert d q.1 q.2) e) k = dictGet d k
    rw [ih _ he, dictGet_dictInsert_ne _ _ _ _ (Ne.symm hq)]

theorem dictGet_dictUpdate_of_some (d e : List (Str × α)) (k : Str) (v : α)
    (hnd : (e.map (fun p => p.1)).Nodup) (h : dictGet e k = some v) :
    dictGet (dictUpdate d e) k = some v := by
  induction e generalizing d with
  | nil => exact Option.noConfusion h
  | cons q e ih =>
    rw [List.map_cons, List.nodup_cons] at hnd
    by_cases hq : q.1 = k
    · have hv : v = q.2 := by
        unfold dictGet at h
        rw [List.find?_cons_of_pos _ (by simp [hq]), Option.map_some'] at h
        exact (Option.some.inj h).symm
      have hke : dictGet e k = none := by
        rw [dictGet_eq_none_iff]
        intro p hp hpk
        exact hnd.1 (List.mem_map.mpr ⟨p, hp, by rw [hpk, hq]⟩)
      show dictGet (dictUpdate (dictInsert d q.1 q.2) e) k = some v
      rw [dictGet_dictUpdate_of_none _ _ _ hke, hq,
        dictGet_dictInsert_self, hv]
    · have h' : dictGet e k = some v := by
        unfold dictGet at h ⊢
        rwa [List.find?_cons_of_neg _ (by simp [hq])] at h
      show dictGet (dictUpdate (dictInsert d q.1 q.2) e) k = some v
      exact ih _ hnd.2 h'

theorem dictGet_filter_key (d : List (Str × α)) (P : Str → Bool) (k : Str) :
    dictGet (d.filter (fun p => P p.1)) k
      = if P k then dictGet d k else none := by
  induction d with
  | nil => simp [dictGet]
  | cons q d ih =>
    by_cases hPq : P q.1
    · rw [List.filter_cons_of_pos (by simpa using hPq)]
      by_cases hq : q.1 = k
      · subst hq
        rw [if_pos hPq]
        unfold dictGet
        rw [List.find?_cons_of_pos _ (by simp),
          List.find?_cons_of_pos _ (by simp)]
      · unfold dictGet at ih ⊢
        rw [List.find?_cons_of_neg _ (by simp [hq]),
          List.find?_cons_of_neg _ (by simp [hq])]
        exact ih
    · rw [List.filter_cons_of_neg (by simpa using hPq)]
      by_cases hq : q.1 = k
      · subst hq
        rw [ih, if_neg hPq, if_neg hPq]
      · rw [ih]
        by_cases hPk : P k
        · rw [if_pos hPk, if_pos hPk]
          unfold dictGet
          rw [List.find?_cons_of_neg _ (by simp [hq])]
        · rw [if_neg hPk, if_neg hPk]

/-! ## Percent-encoding lemmas -/

theorem unhex_hexDigit : ∀ n : Nat, n < 16 → unhex (hexDigit n) = some n := by
  decide

theorem hexDigit_isAlphanum : ∀ n : Nat, n < 16 →
    (hexDigit n).isAlphanum = true := by
  decide

theorem quotePlusChar_ne_nil (c : Char) : quotePlusChar c ≠ [] := by
  unfold quotePlusChar
  by_cases h1 : c = ' '
  · rw [if_pos h1]; simp
  · rw [if_neg h1]
    by_cases h2 : alwaysSafe c
    · rw [if_pos h2]; simp
    · rw [if_neg h2]; simp

theorem quotePlus_ne_nil (c : Char) (s : Str) : quotePlus (c :: s) ≠ [] := by
  unfold quotePlus
  rw [List.flatMap_cons]
  intro h
  rcases List.append_eq_nil.mp h with ⟨h1, _⟩
  exact quotePlusChar_ne_nil c h1

/-- Every character `quotePlus` emits on byte-range input is an ASCII
alphanumeric or one of `_.-~+%` — in particular never a URL
delimiter. -/
theorem mem_quotePlus_class (s : Str) (hs : ∀ c ∈ s, c.toNat < 256) :
    ∀ x ∈ quotePlus s,
      (x.isAlphanum || x = '_' || x = '.' || x = '-' || x = '~'
        || x = '+' || x = '%') = true := by
  intro x hx
  unfold quotePlus at hx
  obtain ⟨c, hc, hmem⟩ := List.mem_flatMap.mp hx
  have hc256 : c.toNat < 256 := hs c hc
  unfold quotePlusChar at hmem
  by_cases h1 : c = ' '
  · rw [if_pos h1, List.mem_singleton] at hmem
    subst hmem
    decide
  · rw [if_neg h1] at hmem
    by_cases h2 : alwaysSafe c
    · rw [if_pos h2, List.mem_singleton] at hmem
      subst hmem
      unfold alwaysSafe at h2
      rw [h2]
      simp
    · rw [if_neg h2] at hmem
      have hhi : c.toNat / 16 < 16 := by omega
      have hlo : c.toNat % 16 < 16 := by omega
      simp only [List.mem_cons, List.not_mem_nil, or_false] at hmem
      rcases hmem with h | h | h
      · subst h; decide
      · subst h
        rw [hexDigit_isAlphanum _ hhi]
        simp
      · subst h
        rw [hexDigit_isAlphanum _ hlo]
        simp

theorem quotePlus_no_delims (s : Str) (hs : ∀ c ∈ s, c.toNat < 256) :
    '&' ∉ quotePlus s ∧ '=' ∉ quotePlus s ∧ '?' ∉ quotePlus s
      ∧ '#' ∉ quotePlus s := by
  refine ⟨?_, ?_, ?_, ?_⟩ <;> intro hmem <;>
    exact absurd (mem_quotePlus_class s hs _ hmem) (by decide)

/-! ## Splitting lemmas -/

theorem splitOnChar_of_not_mem (sep : Char) (s : Str) (h : sep ∉ s) :
    splitOnChar sep s = [s] := by
  induction s with
  | nil => rfl
  | cons c rest ih =>
    have hc : ¬ c = sep := fun e => h (e ▸ List.mem_cons_self c rest)
    have hrest : sep ∉ rest := fun hm => h (List.mem_cons_of_mem c hm)
    simp only [splitOnChar, if_neg hc, ih hrest]

theorem splitOnChar_append (sep : Char) (pre post : Str) (h : sep ∉ pre) :
    splitOnChar sep (pre ++ sep :: post) = pre :: splitOnChar sep post := by
  induction pre with
  | nil => simp [splitOnChar]
  | cons c rest ih =>
    have hc : ¬ c = sep := fun e => h (e ▸ List.mem_cons_self c rest)
    have hrest : sep ∉ rest := fun hm => h (List.mem_cons_of_mem c hm)
    simp only [List.cons_append, splitOnChar, if_neg hc, List.append_eq,
      ih hrest]

theorem partitionChar_of_not_mem (sep : Char) (s : Str) (h : sep ∉ s) :
    partitionChar sep s = (s, none) := by
  induction s with
  | nil => rfl
  | cons c rest ih =>
    have hc : ¬ c = sep := fun e => h (e ▸ List.mem_cons_self c rest)
    have hrest : sep ∉ rest := fun hm => h (List.mem_cons_of_mem c hm)
    simp only [partitionChar, if_neg hc, ih hrest]

theorem partitionChar_append (sep : Char) (pre post : Str) (h : sep ∉ pre) :
    partitionChar sep (pre ++ sep :: post) = (pre, some post) := by
  induction pre with
  | nil => simp [partitionChar]
  | cons c rest ih =>
    have hc : ¬ c = sep := fun e => h (e ▸ List.mem_cons_self c rest)
    have hrest : sep ∉ rest := fun hm => h (List.mem_cons_of_mem c hm)
    simp only [List.cons_append, partitionChar, if_neg hc, List.append_eq,
      ih hrest]

/-! ## unquotePlus ∘ quotePlus roundtrip -/

theorem unquotePlus_plus (l : Str) :
    unquotePlus ('+' :: l) = ' ' :: unquotePlus l := rfl

theorem unquotePlus_percent (a b : Char) (l : Str) (x y : Nat)
    (ha : unhex a = some x) (hb : unhex b = some y) :
    unquotePlus ('%' :: a :: b :: l)
      = Char.ofNat (16 * x + y) :: unquotePlus l := by
  rw [unquotePlus.eq_def]
  simp only [ha, hb]

theorem unquotePlus_cons_plain (c : Char) (l : Str) (h1 : c ≠ '+')
    (h2 : c ≠ '%') : unquotePlus (c :: l) = c :: unquotePlus l := by
  rw [unquotePlus.eq_def]
  split
  · simp_all
  · simp_all
  · simp_all
  · simp_all
  · rename_i c' rest heq
    injection heq with hc hl
    subst hc; subst hl; rfl

/-- Roundtrip: `unquote_plus` undoes `quote_plus` on ASCII input: the encode side
(httpx / `urlencode`) and the decode side (`parse_qs`) agree. -/
theorem unquotePlus_quotePlus (s : Str) (hs : ∀ c ∈ s, c.toNat < 128) :
    unquotePlus (quotePlus s) = s := by
  induction s with
  | nil => rfl
  | cons c rest ih =>
    have hc : c.toNat < 128 := hs c (List.mem_cons_self c rest)
    have hrest : ∀ x ∈ rest, x.toNat < 128 :=
      fun x hx => hs x (List.mem_cons_of_mem c hx)
    have hqp : quotePlus (c :: rest) = quotePlusChar c ++ quotePlus rest :=
      List.flatMap_cons c rest quotePlusChar
    rw [hqp]
    unfold quotePlusChar
    by_cases h1 : c = ' '
    · rw [if_pos h1, h1, List.singleton_append, unquotePlus_plus, ih hrest]
    · rw [if_neg h1]
      by_cases h2 : alwaysSafe c
      · rw [if_pos h2]
        have hp : c ≠ '+' := by
          intro e; rw [e] at h2; exact absurd h2 (by decide)
        have hpc : c ≠ '%' := by
          intro e; rw [e] at h2; exact absurd h2 (by decide)
        rw [List.singleton_append, unquotePlus_cons_plain c _ hp hpc, ih hrest]
      · rw [if_neg h2]
        have hhi : c.toNat / 16 < 16 := by omega
        have hlo : c.toNat % 16 < 16 := by omega
        rw [show ['%', hexDigit (c.toNat / 16), hexDigit (c.toNat % 16)]
              ++ quotePlus rest
            = '%' :: hexDigit (c.toNat / 16) :: hexDigit (c.toNat % 16)
              :: quotePlus rest from rfl]
        rw [unquotePlus_percent _ _ _ _ _ (unhex_hexDigit _ hhi)
          (unhex_hexDigit _ hlo), ih hrest]
        rw [Nat.div_add_mod c.toNat 16, Char.ofNat_toNat]

/-! ## Query-string parsing of the rewritten request -/

theorem queryParamsStr_single (k v : Str) :
    queryParamsStr [(k, v)] = quotePlus k ++ '=' :: quotePlus v := by
  simp [queryParamsStr, List.intercalate]

/-- Parsing the client-encoded query `url=<quote_plus t>`
recovers exactly the original target string. -/
theorem parse_qs_url_single (t : Str) (hne : t ≠ [])
    (hascii : ∀ c ∈ t, c.toNat < 128) :
    parse_qs ("url".data ++ '=' :: quotePlus t) = [("url".data, [t])] := by
  have h256 : ∀ c ∈ t, c.toNat < 256 := fun c hc =>
    lt_trans (hascii c hc) (by norm_num)
  obtain ⟨hamp, heq, -, -⟩ := quotePlus_no_delims t h256
  have hmem : '&' ∉ "url".data ++ '=' :: quotePlus t := by
    intro h
    rcases List.mem_append.mp h with h | h
    · revert h; decide
    · rcases List.mem_cons.mp h with h | h
      · exact absurd h (by decide)
      · exact hamp h
  have hqpne : quotePlus t ≠ [] := by
    cases t with
    | nil => exact absurd rfl hne
    | cons c s => exact quotePlus_ne_nil c s
  unfold parse_qs parse_qsl
  rw [splitOnChar_of_not_mem _ _ hmem]
  have hpiece : parseQsPiece ("url".data ++ '=' :: quotePlus t)
      = some ("url".data, t) := by
    unfold parseQsPiece
    rw [partitionChar_append '=' "url".data (quotePlus t) (by decide)]
    simp only [if_neg hqpne]
    rw [unquotePlus_quotePlus t hascii]
    rfl
  rw [List.filterMap_cons, hpiece]
  simp [addToAssoc]

/-- C1: for every outbound request, the relay-rewritten request's
`url` query parameter, decoded exactly as the relay handler decodes it
(`parse_qs` over the query of `urlparse(request.url)`), recovers the
original request's full URL string — the encode/decode round-trip
between `ProxyflareTransport.handle_request` and `on_fetch`. -/
theorem C1_outbound_url_roundtrip (w : HttpxURL) (t : Str)
    (hne : t ≠ []) (hascii : ∀ c ∈ t, c.toNat < 128)
    (hq : '?' ∉ w.base) (hf : '#' ∉ w.base) :
    dictGet
      (parse_qs (pyUrlparse (httpxUrlStr (rewriteOutbound w t))).query)
      "url".data = some [t] := by
  have h256 : ∀ c ∈ t, c.toNat < 256 := fun c hc =>
    lt_trans (hascii c hc) (by norm_num)
  obtain ⟨-, -, hqm, hhm⟩ := quotePlus_no_delims t h256
  have hrw : rewriteOutbound w t
      = ⟨w.base, "url".data ++ '=' :: quotePlus t⟩ := by
    unfold rewriteOutbound copyWithParams
    rw [queryParamsStr_single]
    rfl
  have hqne : ("url".data ++ '=' :: quotePlus t) ≠ [] := by
    intro h
    exact absurd (List.append_eq_nil.mp h).1 (by decide)
  have hstr : httpxUrlStr (rewriteOutbound w t)
      = w.base ++ '?' :: ("url".data ++ '=' :: quotePlus t) := by
    rw [hrw]
    unfold httpxUrlStr
    simp only [if_neg hqne]
  rw [hstr]
  have hnohash : '#' ∉ w.base ++ '?' :: ("url".data ++ '=' :: quotePlus t) := by
    intro h
    rcases List.mem_append.mp h with h | h
    · exact hf h
    · rcases List.mem_cons.mp h with h | h
      · exact absurd h (by decide)
      · rcases List.mem_append.mp h with h | h
        · revert h; decide
        · rcases List.mem_cons.mp h with h | h
          · exact absurd h (by decide)
          · exact hhm h
  have hparse : pyUrlparse (w.base ++ '?' :: ("url".data ++ '=' :: quotePlus t))
      = ⟨w.base, "url".data ++ '=' :: quotePlus t, []⟩ := by
    unfold pyUrlparse
    rw [partitionChar_of_not_mem _ _ hnohash]
    dsimp only
    rw [partitionChar_append '?' w.base _ hq]
    rfl
  rw [hparse]
  show dictGet (parse_qs ("url".data ++ '=' :: quotePlus t)) "url".data
    = some [t]
  rw [parse_qs_url_single t hne hascii]
  rfl

/-- Witness for C1 at the worker URL and target of the repository's
own transport test. -/
theorem C1_outbound_url_roundtrip_witness :
    ("https://httpbin.org/ip".data ≠ ([] : Str))
    ∧ (∀ c ∈ "https://httpbin.org/ip".data, c.toNat < 128)
    ∧ ('?' ∉ "https://worker.dev".data) ∧ ('#' ∉ "https://worker.dev".data)
    ∧ dictGet
        (parse_qs (pyUrlparse (httpxUrlStr (rewriteOutbound
          ⟨"https://worker.dev".data, []⟩ "https://httpbin.org/ip".data))).query)
        "url".data = some ["https://httpbin.org/ip".data] :=
  ⟨by decide, by decide, by decide, by decide,
    C1_outbound_url_roundtrip ⟨"https://worker.dev".data, []⟩
      "https://httpbin.org/ip".data (by decide) (by decide) (by decide)
      (by decide)⟩

/-! ## Reduction lemmas for target resolution and the handler -/

theorem resolveTarget_of_param (qp : List (Str × List Str)) (h : Option Str)
    (p : Str) (t : Str) (hf : fromUrlParam qp = some t) (hne : t ≠ []) :
    resolveTarget qp h p = some t := by
  unfold resolveTarget
  rw [hf]
  simp [hne]

theorem resolveTarget_of_header (qp : List (Str × List Str)) (s : Str)
    (p : Str) (hf : fromUrlParam qp = none) (hs : s ≠ []) :
    resolveTarget qp (some s) p = some s := by
  unfold resolveTarget
  rw [hf]
  simp [hs]

theorem resolveTarget_of_path (qp : List (Str × List Str)) (h : Option Str)
    (p : Str) (hf : fromUrlParam qp = none) (hh : h.getD [] = [])
    (hp : p ≠ "/".data)
    (hpre : "http".data.isPrefixOf (p.dropWhile (fun c => c = '/'))) :
    resolveTarget qp h p = some (p.dropWhile (fun c => c = '/')) := by
  have hdw : p.dropWhile (fun c => c = '/') ≠ [] := by
    intro e
    rw [e] at hpre
    exact absurd hpre (by decide)
  unfold resolveTarget
  rw [hf]
  simp [hh, hp, hpre, hdw]

theorem resolveTarget_none (qp : List (Str × List Str)) (h : Option Str)
    (p : Str) (hf : fromUrlParam qp = none) (hh : h.getD [] = [])
    (hnp : p = "/".data
      ∨ ¬ "http".data.isPrefixOf (p.dropWhile (fun c => c = '/'))) :
    resolveTarget qp h p = none := by
  unfold resolveTarget
  rw [hf]
  rcases hnp with hp | hp
  · simp [hh, hp]
  · by_cases hp2 : p = "/".data
    · simp [hh, hp2]
    · simp [hh, hp2, hp]

theorem on_fetch_preflight (req : RelayRequest) (env : Env) (rng : Fin 4 → Nat)
    (fr : Except Str DownResp) (hm : req.method = "OPTIONS".data) :
    on_fetch req env rng fr
      = Outcome.preflight ⟨204, none, defaultCorsHeaders, RBody.empty⟩ := by
  unfold on_fetch
  rw [if_pos hm]

theorem on_fetch_missing (req : RelayRequest) (env : Env) (rng : Fin 4 → Nat)
    (fr : Except Str DownResp) (hm : req.method ≠ "OPTIONS".data)
    (hres : resolveTarget (parse_qs req.queryString)
      (headerGet req.headers "X-Target-URL".data) req.path = none) :
    on_fetch req env rng fr
      = Outcome.missingTarget
          (create_error_response "Missing target URL".data usageDetails
            400 none) := by
  unfold on_fetch
  rw [if_neg hm]
  dsimp only
  rw [hres]

theorem on_fetch_proxyError (req : RelayRequest) (env : Env)
    (rng : Fin 4 → Nat) (cause t : Str) (hm : req.method ≠ "OPTIONS".data)
    (hres : resolveTarget (parse_qs req.queryString)
      (headerGet req.headers "X-Target-URL".data) req.path = some t) :
    on_fetch req env rng (Except.error cause)
      = Outcome.proxyError t (prepareDownstreamHeaders req.headers rng)
          (¬ (req.method = "GET".data ∨ req.method = "HEAD".data))
          (create_error_response ("Proxy Error: ".data ++ cause) [] 502
            none) := by
  unfold on_fetch
  rw [if_neg hm]
  dsimp only
  rw [hres]

theorem on_fetch_proxied (req : RelayRequest) (env : Env) (rng : Fin 4 → Nat)
    (response : DownResp) (t : Str) (hm : req.method ≠ "OPTIONS".data)
    (hres : resolveTarget (parse_qs req.queryString)
      (headerGet req.headers "X-Target-URL".data) req.path = some t) :
    on_fetch req env rng (Except.ok response)
      = Outcome.proxied t (prepareDownstreamHeaders req.headers rng)
          (¬ (req.method = "GET".data ∨ req.method = "HEAD".data))
          ⟨response.status, some response.statusText,
            dictUpdate (filterResponseHeaders response.headers)
              (corsFromEnv env),
            RBody.stream response⟩ := by
  unfold on_fetch
  rw [if_neg hm]
  dsimp only
  rw [hres]

/-! ## C3: resolution precedence -/

/-- C3: for every non-OPTIONS relay request the target is resolved
with fixed precedence — (1) the `url` query parameter (when it yields
a non-empty target the header and path are never consulted: the result
is the same for every header and path), (2) the `X-Target-URL` header,
(3) the slash-stripped request path when it begins with `http` — and
when all three are absent `on_fetch` terminally returns the 400
"Missing target URL" error response (independent of the fetch oracle,
i.e. without attempting any fetch). -/
theorem C3_target_precedence :
    (∀ (qp : List (Str × List Str)) (h h' : Option Str) (p p' t : Str),
      fromUrlParam qp = some t → t ≠ [] →
      resolveTarget qp h p = some t
        ∧ resolveTarget qp h p = resolveTarget qp h' p')
    ∧ (∀ (qp : List (Str × List Str)) (s p : Str),
      fromUrlParam qp = none → s ≠ [] →
      resolveTarget qp (some s) p = some s)
    ∧ (∀ (qp : List (Str × List Str)) (h : Option Str) (p : Str),
      fromUrlParam qp = none → h.getD [] = [] → p ≠ "/".data →
      "http".data.isPrefixOf (p.dropWhile (fun c => c = '/')) →
      resolveTarget qp h p = some (p.dropWhile (fun c => c = '/')))
    ∧ (∀ (req : RelayRequest) (env : Env) (rng : Fin 4 → Nat)
        (fr : Except Str DownResp),
      req.method ≠ "OPTIONS".data →
      resolveTarget (parse_qs req.queryString)
        (headerGet req.headers "X-Target-URL".data) req.path = none →
      on_fetch req env rng fr
        = Outcome.missingTarget
            (create_error_response "Missing target URL".data usageDetails
              400 none)
        ∧ ((on_fetch req env rng fr).resp).status = 400) := by
  refine ⟨?_, ?_, ?_, ?_⟩
  · intro qp h h' p p' t hf hne
    exact ⟨resolveTarget_of_param qp h p t hf hne,
      (resolveTarget_of_param qp h p t hf hne).trans
        (resolveTarget_of_param qp h' p' t hf hne).symm⟩
  · intro qp s p hf hs
    exact resolveTarget_of_header qp s p hf hs
  · intro qp h p hf hh hp hpre
    exact resolveTarget_of_path qp h p hf hh hp hpre
  · intro req env rng fr hm hres
    refine ⟨on_fetch_missing req env rng fr hm hres, ?_⟩
    rw [on_fetch_missing req env rng fr hm hres]
    rfl

/-- Witness for C3 at concrete requests exercising all four
precedence branches. -/
theorem C3_target_precedence_witness :
    (fromUrlParam (parse_qs "url=http://a".data) = some "http://a".data)
    ∧ resolveTarget (parse_qs "url=http://a".data)
        (some "https://h".data) "/https://p".data = some "http://a".data
    ∧ resolveTarget (parse_qs "xtra=1".data) (some "https://h".data)
        "/https://p".data = some "https://h".data
    ∧ resolveTarget (parse_qs "xtra=1".data) none "/https://p".data
        = some "https://p".data
    ∧ on_fetch ⟨"GET".data, "/".data, [], []⟩ ⟨none, none, none⟩
        (fun _ => 1) (Except.error [])
        = Outcome.missingTarget
            (create_error_response "Missing target URL".data usageDetails
              400 none) :=
  ⟨by decide,
    (C3_target_precedence.1 (parse_qs "url=http://a".data)
      (some "https://h".data) none "/https://p".data [] "http://a".data
      (by decide) (by decide)).1,
    C3_target_precedence.2.1 (parse_qs "xtra=1".data) "https://h".data
      "/https://p".data (by decide) (by decide),
    by
      have h := C3_target_precedence.2.2.1 (parse_qs "xtra=1".data) none
        "/https://p".data (by decide) (by decide) (by decide) (by decide)
      rw [h]
      decide,
    (C3_target_precedence.2.2.2 ⟨"GET".data, "/".data, [], []⟩
      ⟨none, none, none⟩ (fun _ => 1) (Except.error []) (by decide)
      (by decide)).1⟩

/-! ## C10: empty `url` parameter falls through -/

/-- C10: a `url` query parameter present with an empty value is
treated as absent — `parse_qs` (with Python's default
`keep_blank_values=False`) drops the blank piece entirely, so
resolution with a `url=` piece equals resolution without it, and falls
through to the `X-Target-URL` header and then to the path-embedded
form. -/
theorem C10_empty_url_param :
    parse_qs "url=".data = []
    ∧ (∀ (rest : Str) (h : Option Str) (p : Str),
        resolveTarget (parse_qs ("url=&".data ++ rest)) h p
          = resolveTarget (parse_qs rest) h p)
    ∧ (∀ (s p : Str), s ≠ [] →
        resolveTarget (parse_qs "url=".data) (some s) p = some s)
    ∧ (∀ (p : Str), p ≠ "/".data →
        "http".data.isPrefixOf (p.dropWhile (fun c => c = '/')) →
        resolveTarget (parse_qs "url=".data) none p
          = some (p.dropWhile (fun c => c = '/'))) := by
  have hqs : ∀ rest : Str,
      parse_qs ("url=&".data ++ rest) = parse_qs rest := by
    intro rest
    unfold parse_qs parse_qsl
    rw [show "url=&".data ++ rest = "url=".data ++ '&' :: rest from rfl,
      splitOnChar_append '&' _ _ (by decide), List.filterMap_cons]
    rw [show parseQsPiece "url=".data = none from by decide]
  refine ⟨by decide, ?_, ?_, ?_⟩
  · intro rest h p
    rw [hqs rest]
  · intro s p hs
    exact resolveTarget_of_header _ s p (by decide) hs
  · intro p hp hpre
    exact resolveTarget_of_path _ none p (by decide) rfl hp hpre

/-- Witness for C10: `?url=` falls through to the header and the
path. -/
theorem C10_empty_url_param_witness :
    resolveTarget (parse_qs "url=&a=1".data) (some "https://h".data)
        "/".data = resolveTarget (parse_qs "a=1".data)
        (some "https://h".data) "/".data
    ∧ resolveTarget (parse_qs "url=".data) (some "https://h".data)
        "/".data = some "https://h".data
    ∧ resolveTarget (parse_qs "url=".data) none "/https://p".data
        = some "https://p".data :=
  ⟨C10_empty_url_param.2.1 "a=1".data (some "https://h".data) "/".data,
    C10_empty_url_param.2.2.1 "https://h".data "/".data (by decide),
    by
      have h := C10_empty_url_param.2.2.2 "/https://p".data (by decide)
        (by decide)
      rw [h]
      decide⟩

/-! ## C2: control-parameter filtering and query merging -/

theorem addToAssoc_keys (acc : List (Str × List Str)) (k v : Str) :
    (addToAssoc acc k v).map (fun p => p.1)
      = if acc.any (fun p => p.1 = k) then acc.map (fun p => p.1)
        else acc.map (fun p => p.1) ++ [k] := by
  unfold addToAssoc
  by_cases h : acc.any (fun p => p.1 = k)
  · rw [if_pos h, if_pos h, List.map_map]
    congr 1
    funext p
    by_cases hp : p.1 = k <;> simp [hp]
  · rw [if_neg h, if_neg h, List.map_append]
    rfl

theorem parse_qs_go_keys_nodup (l : List (Str × Str)) :
    ∀ acc : List (Str × List Str), (acc.map (fun p => p.1)).Nodup →
      ((l.foldl (fun acc p => addToAssoc acc p.1 p.2) acc).map
        (fun p => p.1)).Nodup := by
  induction l with
  | nil => intro acc h; exact h
  | cons q l ih =>
    intro acc h
    rw [List.foldl_cons]
    apply ih
    rw [addToAssoc_keys]
    by_cases hany : acc.any (fun p => p.1 = q.1)
    · rw [if_pos hany]; exact h
    · rw [if_neg hany]
      have hk : q.1 ∉ acc.map (fun p => p.1) := by
        intro hm
        obtain ⟨p, hp, he⟩ := List.mem_map.mp hm
        exact hany (List.any_eq_true.mpr ⟨p, hp, by simp [he]⟩)
      simp [List.nodup_append, h, hk]

/-- Keys of `parse_qs` are pairwise distinct: it aggregates repeated query keys, so its keys are
pairwise distinct. -/
theorem parse_qs_keys_nodup (qs : Str) :
    ((parse_qs qs).map (fun p => p.1)).Nodup := by
  unfold parse_qs
  exact parse_qs_go_keys_nodup _ [] (by simp)

theorem filter_keys_nodup (d : List (Str × α)) (f : Str × α → Bool)
    (h : (d.map (fun p => p.1)).Nodup) :
    ((d.filter f).map (fun p => p.1)).Nodup :=
  h.sublist ((List.filter_sublist d).map (fun p => p.1))

/-- C2: for every relay request resolved through the `url` query
parameter, the merged query dict that `on_fetch` re-encodes onto the
target URL (worker.py lines 80–88) excludes the control parameters
`url`, `_cb`, `_t` wherever they come from, contains every other
relay-request parameter with exactly its relay value (so, on a key
collision, the relay request's extra parameter overwrites the
same-named target parameter), and keeps the target URL's own
parameters for keys the relay request does not carry. -/
theorem C2_control_params_and_merge (qs targetQS : Str) :
    (∀ k ∈ FILTERED_PARAMS,
      dictGet (mergedTargetQuery targetQS (parse_qs qs)) k = none)
    ∧ (∀ (k : Str) (vs : List Str), k ∉ FILTERED_PARAMS →
      dictGet (parse_qs qs) k = some vs →
      dictGet (mergedTargetQuery targetQS (parse_qs qs)) k = some vs)
    ∧ (∀ k : Str, k ∉ FILTERED_PARAMS →
      dictGet (parse_qs qs) k = none →
      dictGet (mergedTargetQuery targetQS (parse_qs qs)) k
        = dictGet (parse_qs targetQS) k) := by
  unfold mergedTargetQuery
  refine ⟨?_, ?_, ?_⟩
  · intro k hk
    have hB : dictGet ((parse_qs qs).filter
        (fun p => ¬ p.1 ∈ FILTERED_PARAMS)) k = none := by
      rw [dictGet_filter_key (parse_qs qs)
        (fun x => decide (x ∉ FILTERED_PARAMS)) k]
      simp [hk]
    have hA : dictGet ((parse_qs targetQS).filter
        (fun p => ¬ p.1 ∈ FILTERED_PARAMS)) k = none := by
      rw [dictGet_filter_key (parse_qs targetQS)
        (fun x => decide (x ∉ FILTERED_PARAMS)) k]
      simp [hk]
    rw [dictGet_dictUpdate_of_none _ _ _ hB, hA]
  · intro k vs hk hg
    have hB : dictGet ((parse_qs qs).filter
        (fun p => ¬ p.1 ∈ FILTERED_PARAMS)) k = some vs := by
      rw [dictGet_filter_key (parse_qs qs)
        (fun x => decide (x ∉ FILTERED_PARAMS)) k]
      simpa [hk] using hg
    exact dictGet_dictUpdate_of_some _ _ _ _
      (filter_keys_nodup _ _ (parse_qs_keys_nodup qs)) hB
  · intro k hk hg
    have hB : dictGet ((parse_qs qs).filter
        (fun p => ¬ p.1 ∈ FILTERED_PARAMS)) k = none := by
      rw [dictGet_filter_key (parse_qs qs)
        (fun x => decide (x ∉ FILTERED_PARAMS)) k]
      simp [hk, hg]
    rw [dictGet_dictUpdate_of_none _ _ _ hB,
      dictGet_filter_key (parse_qs targetQS)
        (fun x => decide (x ∉ FILTERED_PARAMS)) k]
    simp [hk]

/-- Witness for C2 at the cache-buster scenario of the repository's
own worker test (`_cb`/`_t` stripped, `extra` kept, `key`
overwritten by the relay request's value). -/
theorem C2_control_params_and_merge_witness :
    ("_cb".data ∈ FILTERED_PARAMS)
    ∧ dictGet (mergedTargetQuery "key=value&_cb=9".data
        (parse_qs "url=T&_cb=123&_t=456&extra=yes&key=override".data))
        "_cb".data = none
    ∧ dictGet (mergedTargetQuery "key=value&_cb=9".data
        (parse_qs "url=T&_cb=123&_t=456&extra=yes&key=override".data))
        "extra".data = some ["yes".data]
    ∧ dictGet (mergedTargetQuery "key=value&_cb=9".data
        (parse_qs "url=T&_cb=123&_t=456&extra=yes&key=override".data))
        "key".data = some ["override".data]
    ∧ dictGet (parse_qs "url=T&_cb=123&_t=456&extra=yes&key=override".data)
        "other".data = none
    ∧ dictGet (mergedTargetQuery "key=value&_cb=9".data
        (parse_qs "url=T&_cb=123&_t=456&extra=yes&key=override".data))
        "other".data
      = dictGet (parse_qs "key=value&_cb=9".data) "other".data :=
  ⟨by decide,
    (C2_control_params_and_merge
      "url=T&_cb=123&_t=456&extra=yes&key=override".data
      "key=value&_cb=9".data).1 "_cb".data (by decide),
    (C2_control_params_and_merge
      "url=T&_cb=123&_t=456&extra=yes&key=override".data
      "key=value&_cb=9".data).2.1 "extra".data ["yes".data] (by decide)
      (by decide),
    (C2_control_params_and_merge
      "url=T&_cb=123&_t=456&extra=yes&key=override".data
      "key=value&_cb=9".data).2.1 "key".data ["override".data] (by decide)
      (by decide),
    by decide,
    (C2_control_params_and_merge
      "url=T&_cb=123&_t=456&extra=yes&key=override".data
      "key=value&_cb=9".data).2.2 "other".data (by decide) (by decide)⟩

/-! ## C4: X-Forwarded-For synthesis -/

theorem generate_random_ip_eq (r : Fin 4 → Nat) :
    generate_random_ip r
      = (Nat.repr (r 0)).data ++ '.' :: ((Nat.repr (r 1)).data
        ++ '.' :: ((Nat.repr (r 2)).data ++ '.' :: (Nat.repr (r 3)).data)) := by
  unfold generate_random_ip
  simp [List.intercalate]

/-- C4: after the rename step, if no header is case-insensitively
`X-Forwarded-For`, the downstream header map is the prepared map plus
exactly one synthesized `X-Forwarded-For` whose value is four
dot-separated `randint(1,255)` integers; if such a header is already
present (any casing), the synthesis step changes nothing — no value is
overwritten and no duplicate key is introduced. -/
theorem C4_forwarded_for_synthesis (entries : List (Str × Str))
    (rng : Fin 4 → Nat) (hr : ∀ i, 1 ≤ rng i ∧ rng i ≤ 255) :
    ((∀ p ∈ sanitizeHeaders entries,
        lowerStr p.1 ≠ "x-forwarded-for".data) →
      prepareDownstreamHeaders entries rng
        = sanitizeHeaders entries
          ++ [("X-Forwarded-For".data, generate_random_ip rng)]
      ∧ (prepareDownstreamHeaders entries rng).countP
          (fun p => lowerStr p.1 = "x-forwarded-for".data) = 1
      ∧ ∃ a b c d : Nat, (1 ≤ a ∧ a ≤ 255) ∧ (1 ≤ b ∧ b ≤ 255)
          ∧ (1 ≤ c ∧ c ≤ 255) ∧ (1 ≤ d ∧ d ≤ 255)
          ∧ generate_random_ip rng
            = (Nat.repr a).data ++ '.' :: ((Nat.repr b).data
              ++ '.' :: ((Nat.repr c).data ++ '.' :: (Nat.repr d).data)))
    ∧ ((∃ p ∈ sanitizeHeaders entries,
        lowerStr p.1 = "x-forwarded-for".data) →
      prepareDownstreamHeaders entries rng = sanitizeHeaders entries) := by
  constructor
  · intro h1
    have hins : prepareDownstreamHeaders entries rng
        = sanitizeHeaders entries
          ++ [("X-Forwarded-For".data, generate_random_ip rng)] := by
      unfold prepareDownstreamHeaders addForwardedFor
      rw [if_neg, dictInsert_eq_append]
      · intro p hp he
        exact h1 p hp (by rw [he]; decide)
      · intro hany
        rw [List.any_eq_true] at hany
        obtain ⟨p, hp, he⟩ := hany
        exact h1 p hp (by simpa using he)
    refine ⟨hins, ?_, ?_⟩
    · rw [hins, List.countP_append,
        List.countP_eq_zero.mpr (by intro p hp; simpa using h1 p hp)]
      have hx : lowerStr "X-Forwarded-For".data = "x-forwarded-for".data := by
        decide
      simp [List.countP_cons, hx]
    · exact ⟨rng 0, rng 1, rng 2, rng 3, hr 0, hr 1, hr 2, hr 3,
        generate_random_ip_eq rng⟩
  · rintro ⟨p, hp, he⟩
    unfold prepareDownstreamHeaders addForwardedFor
    rw [if_pos]
    exact List.any_eq_true.mpr ⟨p, hp, by simp [he]⟩

/-- Witness for C4: a request without any forwarded-for header gets
exactly one synthesized entry; a request with a lowercase
`x-forwarded-for` is left untouched. -/
theorem C4_forwarded_for_synthesis_witness :
    (∀ i : Fin 4, 1 ≤ (fun _ : Fin 4 => 7) i ∧ (fun _ : Fin 4 => 7) i ≤ 255)
    ∧ prepareDownstreamHeaders
        [("Host".data, "w".data), ("X-Custom".data, "v".data)]
        (fun _ => 7)
      = sanitizeHeaders [("Host".data, "w".data), ("X-Custom".data, "v".data)]
        ++ [("X-Forwarded-For".data, generate_random_ip (fun _ => 7))]
    ∧ (prepareDownstreamHeaders
        [("Host".data, "w".data), ("X-Custom".data, "v".data)]
        (fun _ => 7)).countP
        (fun p => lowerStr p.1 = "x-forwarded-for".data) = 1
    ∧ prepareDownstreamHeaders
        [("x-forwarded-for".data, "203.0.113.1".data)] (fun _ => 7)
      = sanitizeHeaders [("x-forwarded-for".data, "203.0.113.1".data)] :=
  ⟨by decide,
    ((C4_forwarded_for_synthesis
      [("Host".data, "w".data), ("X-Custom".data, "v".data)]
      (fun _ => 7) (by decide)).1 (by decide)).1,
    ((C4_forwarded_for_synthesis
      [("Host".data, "w".data), ("X-Custom".data, "v".data)]
      (fun _ => 7) (by decide)).1 (by decide)).2.1,
    (C4_forwarded_for_synthesis
      [("x-forwarded-for".data, "203.0.113.1".data)]
      (fun _ => 7) (by decide)).2 (by decide)⟩

/-! ## C6: the request-header sanitization map -/

theorem sanitizeStep_eq (acc : List (Str × Str)) (kv : Str × Str) :
    sanitizeStep acc kv
      = match renameSpec kv with
        | none => acc
        | some p => dictInsert acc p.1 p.2 := by
  unfold sanitizeStep renameSpec
  by_cases h1 : lowerStr kv.1 ∈ DROPPED_REQUEST_HEADERS
  · simp only [if_pos h1]
  · simp only [if_neg h1]
    by_cases h2 : lowerStr kv.1 = "x-my-x-forwarded-for".data
    · simp only [if_pos h2]
    · simp only [if_neg h2]

theorem sanitize_go (l : List (Str × Str)) :
    ∀ acc : List (Str × Str), (l.filterMap producedKey).Nodup →
      (∀ p ∈ acc, p.1 ∉ l.filterMap producedKey) →
      l.foldl sanitizeStep acc = acc ++ l.filterMap renameSpec := by
  induction l with
  | nil => intro acc _ _; simp
  | cons kv l ih =>
    intro acc hnd hdisj
    rw [List.foldl_cons, List.filterMap_cons]
    cases hk : renameSpec kv with
    | none =>
      have hpk : producedKey kv = none := by
        unfold producedKey; rw [hk]; rfl
      have hnd2 : (l.filterMap producedKey).Nodup := by
        rwa [List.filterMap_cons, hpk] at hnd
      have hdisj2 : ∀ p ∈ acc, p.1 ∉ l.filterMap producedKey := by
        intro p hp
        have hd := hdisj p hp
        rwa [List.filterMap_cons, hpk] at hd
      simp only [sanitizeStep_eq, hk]
      exact ih acc hnd2 hdisj2
    | some q =>
      have hpk : producedKey kv = some q.1 := by
        unfold producedKey; rw [hk]; rfl
      have hfm : (kv :: l).filterMap producedKey
          = q.1 :: l.filterMap producedKey := by
        rw [List.filterMap_cons, hpk]
      have hnd2 := hnd
      rw [hfm, List.nodup_cons] at hnd2
      have hins : dictInsert acc q.1 q.2 = acc ++ [q] := by
        apply dictInsert_eq_append
        intro p hp he
        have hd := hdisj p hp
        rw [hfm] at hd
        exact hd (he ▸ List.mem_cons_self q.1 (l.filterMap producedKey))
      simp only [sanitizeStep_eq, hk, hins]
      rw [ih (acc ++ [q]) hnd2.2 ?_]
      · rw [List.append_assoc]
        rfl
      · intro p hp
        rcases List.mem_append.mp hp with hpa | hpq
        · have hd := hdisj p hpa
          rw [hfm] at hd
          exact fun hm => hd (List.mem_cons_of_mem _ hm)
        · have hq : p = q := by simpa using hpq
          subst hq
          exact hnd2.1

theorem producedKey_cases (kv : Str × Str) (k : Str)
    (h : producedKey kv = some k) :
    (lowerStr kv.1 = "x-my-x-forwarded-for".data
      ∧ k = "X-Forwarded-For".data)
    ∨ (lowerStr kv.1 ∉ DROPPED_REQUEST_HEADERS
      ∧ lowerStr kv.1 ≠ "x-my-x-forwarded-for".data ∧ k = kv.1) := by
  unfold producedKey renameSpec at h
  by_cases h1 : lowerStr kv.1 ∈ DROPPED_REQUEST_HEADERS
  · rw [if_pos h1] at h
    exact Option.noConfusion h
  · rw [if_neg h1] at h
    by_cases h2 : lowerStr kv.1 = "x-my-x-forwarded-for".data
    · rw [if_pos h2] at h
      exact Or.inl ⟨h2, by simpa using h.symm⟩
    · rw [if_neg h2] at h
      exact Or.inr ⟨h1, h2, by simpa using h.symm⟩

/-- Under the JS `Headers` guarantee (names pairwise distinct after
lowercasing) and absent the exact-`X-Forwarded-For` / rename clash,
every entry contributes a distinct key to the prepared header dict. -/
theorem producedKeys_nodup (entries : List (Str × Str))
    (hl : (entries.map (fun p => lowerStr p.1)).Nodup)
    (hx : ¬ (("X-Forwarded-For".data ∈ entries.map (fun p => p.1))
      ∧ ∃ p ∈ entries, lowerStr p.1 = "x-my-x-forwarded-for".data)) :
    (entries.filterMap producedKey).Nodup := by
  induction entries with
  | nil => simp
  | cons kv l ih =>
    rw [List.map_cons, List.nodup_cons] at hl
    have hx2 : ¬ (("X-Forwarded-For".data ∈ l.map (fun p => p.1))
        ∧ ∃ p ∈ l, lowerStr p.1 = "x-my-x-forwarded-for".data) := by
      rintro ⟨ha, p, hp, hpe⟩
      refine hx ⟨?_, p, List.mem_cons_of_mem kv hp, hpe⟩
      rw [List.map_cons]
      exact List.mem_cons_of_mem _ ha
    have ihl := ih hl.2 hx2
    rw [List.filterMap_cons]
    cases hk : producedKey kv with
    | none => exact ihl
    | some k =>
      refine List.nodup_cons.mpr ⟨?_, ihl⟩
      intro hmem
      obtain ⟨kv2, hkv2, hpk2⟩ := List.mem_filterMap.mp hmem
      rcases producedKey_cases kv k hk with ⟨hA1, hA2⟩ | ⟨hB1, hB2, hB3⟩
      · rcases producedKey_cases kv2 k hpk2 with ⟨hC1, hC2⟩ | ⟨hD1, hD2, hD3⟩
        · exact hl.1 (List.mem_map.mpr ⟨kv2, hkv2, hC1.trans hA1.symm⟩)
        · refine hx ⟨?_, kv, List.mem_cons_self _ _, hA1⟩
          rw [List.map_cons]
          exact List.mem_cons_of_mem _
            (List.mem_map.mpr ⟨kv2, hkv2, hD3.symm.trans hA2⟩)
      · rcases producedKey_cases kv2 k hpk2 with ⟨hC1, hC2⟩ | ⟨hD1, hD2, hD3⟩
        · refine hx ⟨?_, kv2, List.mem_cons_of_mem _ hkv2, hC1⟩
          rw [List.map_cons]
          exact List.mem_cons.mpr (Or.inl (hC2.symm.trans hB3))
        · exact hl.1 (List.mem_map.mpr ⟨kv2, hkv2, by rw [← hD3, hB3]⟩)

/-- C6 (amended): provided the entry names are pairwise distinct after
lowercasing (as JS `Headers.entries()` guarantees) and the request
does not carry both an exact `X-Forwarded-For` header and an
`X-My-X-Forwarded-For` header, the header map sent downstream (before
the C4 synthesis step) equals the incoming entries with the platform
headers dropped case-insensitively, `X-My-X-Forwarded-For` re-emitted
as `X-Forwarded-For`, and every other header passed through under its
original casing and value. -/
theorem C6_sanitize_amended (entries : List (Str × Str))
    (hl : (entries.map (fun p => lowerStr p.1)).Nodup)
    (hx : ¬ (("X-Forwarded-For".data ∈ entries.map (fun p => p.1))
      ∧ ∃ p ∈ entries, lowerStr p.1 = "x-my-x-forwarded-for".data)) :
    sanitizeHeaders entries = sanitizeSpec entries := by
  unfold sanitizeHeaders sanitizeSpec
  rw [sanitize_go entries [] (producedKeys_nodup entries hl hx)
    (by intro p hp; exact absurd hp (List.not_mem_nil p))]
  rw [List.nil_append]

/-- C6 counterexample: with both `X-Forwarded-For` and
`X-My-X-Forwarded-For` present, the rename overwrites the original
`X-Forwarded-For` value in the Python dict, so the claimed
pass-through map does not hold as stated. -/
theorem C6_sanitize_counterexample :
    dictGet (sanitizeHeaders
      [("X-Forwarded-For".data, "1.1.1.1".data),
       ("X-My-X-Forwarded-For".data, "2.2.2.2".data)])
      "X-Forwarded-For".data = some "2.2.2.2".data
    ∧ sanitizeHeaders
        [("X-Forwarded-For".data, "1.1.1.1".data),
         ("X-My-X-Forwarded-For".data, "2.2.2.2".data)]
      ≠ sanitizeSpec
        [("X-Forwarded-For".data, "1.1.1.1".data),
         ("X-My-X-Forwarded-For".data, "2.2.2.2".data)] := by
  constructor <;> decide

/-- Witness for the amended C6 on a request mixing dropped, renamed
and passed-through headers. -/
theorem C6_sanitize_amended_witness :
    sanitizeHeaders
      [("Host".data, "w".data), ("CF-Ray".data, "r".data),
       ("X-My-X-Forwarded-For".data, "9.9.9.9".data),
       ("X-Custom".data, "v".data)]
      = sanitizeSpec
        [("Host".data, "w".data), ("CF-Ray".data, "r".data),
         ("X-My-X-Forwarded-For".data, "9.9.9.9".data),
         ("X-Custom".data, "v".data)] :=
  C6_sanitize_amended
    [("Host".data, "w".data), ("CF-Ray".data, "r".data),
     ("X-My-X-Forwarded-For".data, "9.9.9.9".data),
     ("X-Custom".data, "v".data)] (by decide) (by decide)

/-! ## C5: response-header invariants -/

theorem filterResponseHeaders_clean (l : List (Str × Str)) :
    ∀ p ∈ filterResponseHeaders l,
      lowerStr p.1 ∉ DROPPED_RESPONSE_HEADERS := by
  unfold filterResponseHeaders
  suffices h : ∀ acc : List (Str × Str),
      (∀ p ∈ acc, lowerStr p.1 ∉ DROPPED_RESPONSE_HEADERS) →
      ∀ p ∈ l.foldl
        (fun acc p =>
          if lowerStr p.1 ∈ DROPPED_RESPONSE_HEADERS then acc
          else dictInsert acc p.1 p.2) acc,
        lowerStr p.1 ∉ DROPPED_RESPONSE_HEADERS by
    exact h [] (by intro p hp; exact absurd hp (List.not_mem_nil p))
  induction l with
  | nil => intro acc hacc p hp; exact hacc p hp
  | cons q l ih =>
    intro acc hacc p hp
    rw [List.foldl_cons] at hp
    by_cases hq : lowerStr q.1 ∈ DROPPED_RESPONSE_HEADERS
    · rw [if_pos hq] at hp
      exact ih acc hacc p hp
    · rw [if_neg hq] at hp
      refine ih _ ?_ p hp
      intro r hr
      rcases mem_dictInsert acc q.1 q.2 r hr with hr2 | hr2
      · exact hacc r hr2
      · rw [hr2]; exact hq

theorem mem_dictUpdate (A B : List (Str × α)) (p : Str × α)
    (hp : p ∈ dictUpdate A B) : p ∈ A ∨ p.1 ∈ B.map (fun q => q.1) := by
  induction B generalizing A with
  | nil => exact Or.inl hp
  | cons q B ih =>
    rcases ih _ hp with h | h
    · rcases mem_dictInsert A q.1 q.2 p h with h2 | h2
      · exact Or.inl h2
      · right
        rw [h2, List.map_cons]
        exact List.mem_cons_self q.1 _
    · right
      rw [List.map_cons]
      exact List.mem_cons_of_mem _ h

theorem create_error_headers (message : Str) (details : List (Str × JVal))
    (status : Nat) :
    (create_error_response message details status none).headers
      = dictUpdate [("Content-Type".data, "application/json".data)]
          defaultCorsHeaders := rfl

theorem dictGet_cors (A : List (Str × Str)) (env : Env) :
    dictGet (dictUpdate A (corsFromEnv env))
      "Access-Control-Allow-Origin".data
      = some (env.CORS_ORIGIN.getD "*".data)
    ∧ dictGet (dictUpdate A (corsFromEnv env))
      "Access-Control-Allow-Methods".data
      = some (env.CORS_METHODS.getD "GET, POST, OPTIONS".data)
    ∧ dictGet (dictUpdate A (corsFromEnv env))
      "Access-Control-Allow-Headers".data
      = some (env.CORS_ALLOWED_HEADERS.getD "*".data) := by
  have hu : dictUpdate A (corsFromEnv env)
      = dictInsert (dictInsert (dictInsert A
          "Access-Control-Allow-Origin".data
          (env.CORS_ORIGIN.getD "*".data))
          "Access-Control-Allow-Methods".data
          (env.CORS_METHODS.getD "GET, POST, OPTIONS".data))
          "Access-Control-Allow-Headers".data
          (env.CORS_ALLOWED_HEADERS.getD "*".data) := rfl
  rw [hu]
  refine ⟨?_, ?_, ?_⟩
  · rw [dictGet_dictInsert_ne _ _ _ _ (by decide),
      dictGet_dictInsert_ne _ _ _ _ (by decide), dictGet_dictInsert_self]
  · rw [dictGet_dictInsert_ne _ _ _ _ (by decide), dictGet_dictInsert_self]
  · rw [dictGet_dictInsert_self]

/-- C5: every response `on_fetch` hands back — the 204 preflight, the
400 and 502 error responses, and the proxied response — carries no
`Content-Encoding`, `Content-Length` or `Transfer-Encoding` header
(case-insensitively), and always carries the three
`Access-Control-Allow-*` headers. -/
theorem C5_response_headers (req : RelayRequest) (env : Env)
    (rng : Fin 4 → Nat) (fr : Except Str DownResp) :
    (∀ p ∈ ((on_fetch req env rng fr).resp).headers,
      lowerStr p.1 ∉ DROPPED_RESPONSE_HEADERS)
    ∧ (dictGet ((on_fetch req env rng fr).resp).headers
        "Access-Control-Allow-Origin".data).isSome = true
    ∧ (dictGet ((on_fetch req env rng fr).resp).headers
        "Access-Control-Allow-Methods".data).isSome = true
    ∧ (dictGet ((on_fetch req env rng fr).resp).headers
        "Access-Control-Allow-Headers".data).isSome = true := by
  by_cases hm : req.method = "OPTIONS".data
  · rw [on_fetch_preflight req env rng fr hm]
    exact ⟨by decide, by decide, by decide, by decide⟩
  · cases hres : resolveTarget (parse_qs req.queryString)
        (headerGet req.headers "X-Target-URL".data) req.path with
    | none =>
      rw [on_fetch_missing req env rng fr hm hres]
      exact ⟨by decide, by decide, by decide, by decide⟩
    | some t =>
      cases fr with
      | error e =>
        rw [on_fetch_proxyError req env rng e t hm hres]
        dsimp only [Outcome.resp]
        rw [create_error_headers]
        refine ⟨?_, by decide, by decide, by decide⟩
        intro p hp
        rcases mem_dictUpdate _ _ p hp with h | h
        · have hp2 : p = ("Content-Type".data, "application/json".data) :=
            List.mem_singleton.mp h
          rw [hp2]; decide
        · have hn : defaultCorsHeaders.map (fun q => q.1)
              = ["Access-Control-Allow-Origin".data,
                 "Access-Control-Allow-Methods".data,
                 "Access-Control-Allow-Headers".data] := rfl
          rw [hn] at h
          simp only [List.mem_cons, List.not_mem_nil, or_false] at h
          rcases h with h | h | h <;> rw [h] <;> decide
      | ok response =>
        rw [on_fetch_proxied req env rng response t hm hres]
        dsimp only [Outcome.resp]
        obtain ⟨h1, h2, h3⟩ :=
          dictGet_cors (filterResponseHeaders response.headers) env
        refine ⟨?_, by rw [h1]; rfl, by rw [h2]; rfl, by rw [h3]; rfl⟩
        intro p hp
        rcases mem_dictUpdate _ _ p hp with h | h
        · exact filterResponseHeaders_clean response.headers p h
        · have hn : (corsFromEnv env).map (fun q => q.1)
              = ["Access-Control-Allow-Origin".data,
                 "Access-Control-Allow-Methods".data,
                 "Access-Control-Allow-Headers".data] := rfl
          rw [hn] at h
          simp only [List.mem_cons, List.not_mem_nil, or_false] at h
          rcases h with h | h | h <;> rw [h] <;> decide

/-! ## C7: structured error reporting -/

/-- C7: failures are JSON bodies with an `error` field and a
distinguishing status — a request with no resolvable target gets 400
with `{"error": "Missing target URL", "usage": {...}}` documenting the
three input mechanisms (and the outcome is the same for every fetch
oracle: no fetch, no retry), while a downstream fetch failure gets 502
with `{"error": "Proxy Error: <cause>"}`. -/
theorem C7_error_bodies (req : RelayRequest) (env : Env)
    (rng : Fin 4 → Nat) :
    (∀ fr : Except Str DownResp, req.method ≠ "OPTIONS".data →
      resolveTarget (parse_qs req.queryString)
        (headerGet req.headers "X-Target-URL".data) req.path = none →
      ((on_fetch req env rng fr).resp).status = 400
      ∧ ((on_fetch req env rng fr).resp).errorField
          = some (JVal.s "Missing target URL".data)
      ∧ ((on_fetch req env rng fr).resp).usageField
          = some (JVal.obj
            [("query_param".data, JVal.s "?url=https://example.com".data),
             ("header".data, JVal.s "X-Target-URL: https://example.com".data),
             ("path".data, JVal.s "/https://example.com".data)])
      ∧ on_fetch req env rng fr
          = on_fetch req env rng (Except.error []))
    ∧ (∀ (t cause : Str), req.method ≠ "OPTIONS".data →
      resolveTarget (parse_qs req.queryString)
        (headerGet req.headers "X-Target-URL".data) req.path = some t →
      ((on_fetch req env rng (Except.error cause)).resp).status = 502
      ∧ ((on_fetch req env rng (Except.error cause)).resp).errorField
          = some (JVal.s ("Proxy Error: ".data ++ cause))) := by
  constructor
  · intro fr hm hres
    refine ⟨?_, ?_, ?_, ?_⟩
    · rw [on_fetch_missing req env rng fr hm hres]
      rfl
    · rw [on_fetch_missing req env rng fr hm hres]
      rfl
    · rw [on_fetch_missing req env rng fr hm hres]
      rfl
    · rw [on_fetch_missing req env rng fr hm hres,
        on_fetch_missing req env rng (Except.error []) hm hres]
  · intro t cause hm hres
    refine ⟨?_, ?_⟩
    · rw [on_fetch_proxyError req env rng cause t hm hres]
      rfl
    · rw [on_fetch_proxyError req env rng cause t hm hres]
      rfl

/-- Witness for C7: the bare request resolves to 400 "Missing target
URL"; a resolvable request whose fetch raises gets 502 with the
prefixed cause. -/
theorem C7_error_bodies_witness :
    (((on_fetch ⟨"GET".data, "/".data, [], []⟩ ⟨none, none, none⟩
        (fun _ => 1) (Except.ok ⟨200, [], []⟩)).resp).status = 400
      ∧ ((on_fetch ⟨"GET".data, "/".data, [], []⟩ ⟨none, none, none⟩
        (fun _ => 1) (Except.ok ⟨200, [], []⟩)).resp).errorField
          = some (JVal.s "Missing target URL".data))
    ∧ (((on_fetch ⟨"GET".data, "/".data, "url=http://x".data, []⟩
        ⟨none, none, none⟩ (fun _ => 1)
        (Except.error "boom".data)).resp).status = 502
      ∧ ((on_fetch ⟨"GET".data, "/".data, "url=http://x".data, []⟩
        ⟨none, none, none⟩ (fun _ => 1)
        (Except.error "boom".data)).resp).errorField
          = some (JVal.s "Proxy Error: boom".data)) :=
  ⟨⟨((C7_error_bodies ⟨"GET".data, "/".data, [], []⟩ ⟨none, none, none⟩
      (fun _ => 1)).1 (Except.ok ⟨200, [], []⟩) (by decide) (by decide)).1,
    ((C7_error_bodies ⟨"GET".data, "/".data, [], []⟩ ⟨none, none, none⟩
      (fun _ => 1)).1 (Except.ok ⟨200, [], []⟩) (by decide)
      (by decide)).2.1⟩,
   ⟨((C7_error_bodies ⟨"GET".data, "/".data, "url=http://x".data, []⟩
      ⟨none, none, none⟩ (fun _ => 1)).2 "http://x".data "boom".data
      (by decide) (by decide)).1,
    ((C7_error_bodies ⟨"GET".data, "/".data, "url=http://x".data, []⟩
      ⟨none, none, none⟩ (fun _ => 1)).2 "http://x".data "boom".data
      (by decide) (by decide)).2⟩⟩

/-! ## C9: OPTIONS preflight and CORS configurability -/

/-- C9 counterexample: the preflight CORS headers are hardcoded — a
`CORS_ORIGIN` binding is ignored on the OPTIONS path — and on the only
env-reading path (the proxied response) the `CORS_METHODS` default is
`GET, POST, OPTIONS`, not the full method list the claim states. -/
theorem C9_cors_counterexample :
    dictGet ((on_fetch ⟨"OPTIONS".data, "/".data, [], []⟩
        ⟨some "https://only.example".data, none, none⟩ (fun _ => 1)
        (Except.error [])).resp).headers
      "Access-Control-Allow-Origin".data = some "*".data
    ∧ "*".data ≠ "https://only.example".data
    ∧ dictGet ((on_fetch ⟨"GET".data, "/".data, "url=http://x".data, []⟩
        ⟨none, none, none⟩ (fun _ => 1)
        (Except.ok ⟨200, [], []⟩)).resp).headers
      "Access-Control-Allow-Methods".data = some "GET, POST, OPTIONS".data
    ∧ "GET, POST, OPTIONS".data
        ≠ "GET, POST, PUT, DELETE, OPTIONS, PATCH, HEAD".data := by
  refine ⟨by decide, by decide, by decide, by decide⟩

/-- C9 (amended): `OPTIONS` returns 204 with the three CORS headers
hardcoded to `*` / `GET, POST, PUT, DELETE, OPTIONS, PATCH, HEAD` /
`*` regardless of the environment; only the proxied (post-fetch)
response reads `CORS_ORIGIN` / `CORS_METHODS` / `CORS_ALLOWED_HEADERS`
from the environment, with defaults `*` / `GET, POST, OPTIONS` / `*`
when absent; the 400 and 502 error responses use the hardcoded
defaults. -/
theorem C9_cors_amended :
    (∀ (req : RelayRequest) (env : Env) (rng : Fin 4 → Nat)
        (fr : Except Str DownResp), req.method = "OPTIONS".data →
      on_fetch req env rng fr
        = Outcome.preflight ⟨204, none, defaultCorsHeaders, RBody.empty⟩
      ∧ ((on_fetch req env rng fr).resp).status = 204)
    ∧ (∀ (req : RelayRequest) (env : Env) (rng : Fin 4 → Nat)
        (response : DownResp) (t : Str), req.method ≠ "OPTIONS".data →
      resolveTarget (parse_qs req.queryString)
        (headerGet req.headers "X-Target-URL".data) req.path = some t →
      dictGet ((on_fetch req env rng (Except.ok response)).resp).headers
          "Access-Control-Allow-Origin".data
        = some (env.CORS_ORIGIN.getD "*".data)
      ∧ dictGet ((on_fetch req env rng (Except.ok response)).resp).headers
          "Access-Control-Allow-Methods".data
        = some (env.CORS_METHODS.getD "GET, POST, OPTIONS".data)
      ∧ dictGet ((on_fetch req env rng (Except.ok response)).resp).headers
          "Access-Control-Allow-Headers".data
        = some (env.CORS_ALLOWED_HEADERS.getD "*".data))
    ∧ (∀ (req : RelayRequest) (env : Env) (rng : Fin 4 → Nat)
        (fr : Except Str DownResp), req.method ≠ "OPTIONS".data →
      resolveTarget (parse_qs req.queryString)
        (headerGet req.headers "X-Target-URL".data) req.path = none →
      dictGet ((on_fetch req env rng fr).resp).headers
          "Access-Control-Allow-Methods".data
        = some "GET, POST, PUT, DELETE, OPTIONS, PATCH, HEAD".data)
    ∧ (∀ (req : RelayRequest) (env : Env) (rng : Fin 4 → Nat)
        (t cause : Str), req.method ≠ "OPTIONS".data →
      resolveTarget (parse_qs req.queryString)
        (headerGet req.headers "X-Target-URL".data) req.path = some t →
      dictGet ((on_fetch req env rng (Except.error cause)).resp).headers
          "Access-Control-Allow-Methods".data
        = some "GET, POST, PUT, DELETE, OPTIONS, PATCH, HEAD".data) := by
  refine ⟨?_, ?_, ?_, ?_⟩
  · intro req env rng fr hm
    refine ⟨on_fetch_preflight req env rng fr hm, ?_⟩
    rw [on_fetch_preflight req env rng fr hm]
    rfl
  · intro req env rng response t hm hres
    rw [on_fetch_proxied req env rng response t hm hres]
    exact dictGet_cors (filterResponseHeaders response.headers) env
  · intro req env rng fr hm hres
    rw [on_fetch_missing req env rng fr hm hres]
    dsimp only [Outcome.resp]
    rw [create_error_headers]
    decide
  · intro req env rng t cause hm hres
    rw [on_fetch_proxyError req env rng cause t hm hres]
    dsimp only [Outcome.resp]
    rw [create_error_headers]
    decide

/-- Witness for the amended C9 at concrete preflight, proxied and
error requests. -/
theorem C9_cors_amended_witness :
    on_fetch ⟨"OPTIONS".data, "/".data, [], []⟩
        ⟨some "https://only.example".data, none, none⟩ (fun _ => 1)
        (Except.error [])
      = Outcome.preflight ⟨204, none, defaultCorsHeaders, RBody.empty⟩
    ∧ dictGet ((on_fetch ⟨"GET".data, "/".data, "url=http://x".data, []⟩
        ⟨none, some "PUT".data, none⟩ (fun _ => 1)
        (Except.ok ⟨200, [], []⟩)).resp).headers
        "Access-Control-Allow-Methods".data = some "PUT".data
    ∧ dictGet ((on_fetch ⟨"GET".data, "/".data, [], []⟩ ⟨none, none, none⟩
        (fun _ => 1) (Except.ok ⟨200, [], []⟩)).resp).headers
        "Access-Control-Allow-Methods".data
      = some "GET, POST, PUT, DELETE, OPTIONS, PATCH, HEAD".data :=
  ⟨(C9_cors_amended.1 ⟨"OPTIONS".data, "/".data, [], []⟩
      ⟨some "https://only.example".data, none, none⟩ (fun _ => 1)
      (Except.error []) (by decide)).1,
   (C9_cors_amended.2.1 ⟨"GET".data, "/".data, "url=http://x".data, []⟩
      ⟨none, some "PUT".data, none⟩ (fun _ => 1) ⟨200, [], []⟩
      "http://x".data (by decide) (by decide)).2.1,
   C9_cors_amended.2.2.1 ⟨"GET".data, "/".data, [], []⟩ ⟨none, none, none⟩
      (fun _ => 1) (Except.ok ⟨200, [], []⟩) (by decide) (by decide)⟩

/-! ## C8: the rewrite and the endpoint base's own query -/

/-- C8 counterexample: an endpoint base URL already carrying a query
parameter loses it — httpx's `copy_with(params=...)` replaces the
query component, so `a=1` is absent from the rewritten request. -/
theorem C8_rewrite_counterexample :
    dictGet (parse_qs "a=1".data) "a".data = some ["1".data]
    ∧ dictGet (parse_qs (rewriteOutbound
        ⟨"https://worker.dev".data, "a=1".data⟩
        "https://target.example/".data).query) "a".data = none := by
  refine ⟨by decide, by decide⟩

/-- C8 (amended): the Outbound Rewriter keeps everything before the
query of the endpoint base URL unchanged and REPLACES the query
component with the single `url` parameter: the rewritten query decodes
to exactly the original URL under `url` and carries no other
parameter, whatever query the endpoint base had. -/
theorem C8_rewrite_replaces_query (w : HttpxURL) (t : Str)
    (hne : t ≠ []) (hascii : ∀ c ∈ t, c.toNat < 128) :
    (rewriteOutbound w t).base = w.base
    ∧ dictGet (parse_qs (rewriteOutbound w t).query) "url".data = some [t]
    ∧ (∀ k : Str, k ≠ "url".data →
        dictGet (parse_qs (rewriteOutbound w t).query) k = none) := by
  have hq : (rewriteOutbound w t).query
      = "url".data ++ '=' :: quotePlus t := by
    show queryParamsStr [("url".data, t)] = _
    rw [queryParamsStr_single]
    rfl
  refine ⟨rfl, ?_, ?_⟩
  · rw [hq, parse_qs_url_single t hne hascii]
    rfl
  · intro k hk
    rw [hq, parse_qs_url_single t hne hascii, dictGet_eq_none_iff]
    intro p hp
    have hp2 : p = ("url".data, [t]) := List.mem_singleton.mp hp
    rw [hp2]
    exact fun e => hk e.symm

/-- Witness for the amended C8 with an endpoint base that carries its
own query parameter. -/
theorem C8_rewrite_replaces_query_witness :
    (rewriteOutbound ⟨"https://worker.dev".data, "a=1".data⟩
        "https://httpbin.org/ip".data).base = "https://worker.dev".data
    ∧ dictGet (parse_qs (rewriteOutbound
        ⟨"https://worker.dev".data, "a=1".data⟩
        "https://httpbin.org/ip".data).query) "url".data
      = some ["https://httpbin.org/ip".data]
    ∧ dictGet (parse_qs (rewriteOutbound
        ⟨"https://worker.dev".data, "a=1".data⟩
        "https://httpbin.org/ip".data).query) "a".data = none :=
  ⟨(C8_rewrite_replaces_query ⟨"https://worker.dev".data, "a=1".data⟩
      "https://httpbin.org/ip".data (by decide) (by decide)).1,
   (C8_rewrite_replaces_query ⟨"https://worker.dev".data, "a=1".data⟩
      "https://httpbin.org/ip".data (by decide) (by decide)).2.1,
   (C8_rewrite_replaces_query ⟨"https://worker.dev".data, "a=1".data⟩
      "https://httpbin.org/ip".data (by decide) (by decide)).2.2 "a".data
      (by decide)⟩

end Proxyflare
